import Mathlib

/-!
# Verification of the openapi-validator repository

Shallow embedding of the request/response validation engine and the hosting
adapters of the `@oselvar/openapi-validator` library, together with proofs of
the behavioural claims about it.

The AWS Lambda adapter (`toProxyHandler`, `toRequest`, `toResult`) and the
Express adapter (`addRoute`) are translated from the TypeScript source.  The
core `Validator` (`validateBody`, `validateResponse`) and the HTTP error model
(`toHttpError`) are not part of the available sources (only their callers and
documentation are), so those components are modelled from the specification,
as marked in their doc comments.
-/

set_option autoImplicit false

namespace OpenapiValidator

/-! ## Generic HTTP data model (Fetch-style Request/Response) -/

/-- A JSON value.  Models the values produced by the platform JSON parser. -/
inductive Json where
  | null
  | bool (b : Bool)
  | num (n : Int)
  | str (s : String)
  | arr (elems : List Json)
  | obj (fields : List (String × Json))

/-- Field lookup in a JSON object's field list (first match wins, as in JS). -/
def jsonLookup : List (String × Json) → String → Option Json
  | [], _ => none
  | (k, v) :: t, key => if k == key then some v else jsonLookup t key

/-- Lower-case a string character by character (models JS `toLowerCase` on
ASCII data, which is all that header names and content types use). -/
def lowerStr (s : String) : String :=
  String.mk (s.data.map Char.toLower)

/-- Case-insensitive lookup of a header value in an ordered header list
(models `Headers.get`, which is case-insensitive on header names). -/
def headerGet (headers : List (String × String)) (name : String) : Option String :=
  (headers.find? (fun kv => lowerStr kv.1 == lowerStr name)).map (·.2)

/-- A Fetch-style request: URL left abstract here (the validator never reads
it), method, ordered header list, and an optional raw body (`none` models a
null body; the body is modelled as already-buffered text). -/
structure GenRequest where
  method : String
  headers : List (String × String)
  body : Option String

/-- A Fetch-style response: status, ordered header list, and buffered body
text. -/
structure GenResponse where
  status : Nat
  headers : List (String × String)
  body : String

/-! ## Schema capability

Modelled from the spec: the schema/validation library is an external opaque
capability — "given a schema and a raw value, returns a successful parse
(typed value) or a structured failure (ordered list of {path, message}
issues)", with "one entry per violated field".  Following the repository's
examples, a schema is an object schema: a list of required string-valued
fields, each with a decidable content predicate (standing in for a regex). -/

/-- A single field-level validation issue: field path and message. -/
structure Issue where
  path : List String
  message : String
deriving DecidableEq

/-- An object schema: required string fields, each with a content check. -/
def Schema : Type := List (String × (String → Bool))

/-- Modelled from the spec: check one required string field of an object. -/
def checkField (fields : List (String × Json)) (name : String)
    (pred : String → Bool) : Option Issue :=
  match jsonLookup fields name with
  | none => some ⟨[name], "Required"⟩
  | some (Json.str s) => if pred s then none else some ⟨[name], "Invalid"⟩
  | some _ => some ⟨[name], "Expected string"⟩

/-- Modelled from the spec: the schema capability's `validate(schema, value)`,
returning the value on success or the ordered list of field issues on
failure. -/
def validateSchema (schema : Schema) (j : Json) : Except (List Issue) Json :=
  match j with
  | Json.obj fields =>
    let issues := schema.filterMap (fun np => checkField fields np.1 np.2)
    if issues.isEmpty then Except.ok j else Except.error issues
  | _ => Except.error [⟨[], "Expected object"⟩]

/-! ## HTTP error model

Modelled from the spec: a small taxonomy of error kinds, each carrying an
HTTP status code, a message and optional field issues. -/

/-- The validation-error taxonomy (spec section 7). -/
inductive ErrorKind where
  | notFound
  | unsupportedMediaType
  | unprocessableEntity
  | internal
deriving DecidableEq

/-- The HTTP status carried by each error kind. -/
def ErrorKind.toStatus : ErrorKind → Nat
  | .notFound => 404
  | .unsupportedMediaType => 415
  | .unprocessableEntity => 422
  | .internal => 500

/-- A structured validation error: kind, status, message, issues. -/
structure ValidationError where
  kind : ErrorKind
  status : Nat
  message : String
  issues : List Issue
deriving DecidableEq

/-! ## Route contract -/

/-- A declared response definition: description plus an optional
content-type-to-schema mapping (empty list = no content schemas). -/
structure ResponseDef where
  description : String
  content : List (String × Schema)

/-- Modelled from the spec: the declarative route contract — method, path
template, request body schemas keyed by content type, and the status-keyed
response table. (Params/query schemas are omitted: no claim mentions them.) -/
structure RouteContract where
  method : String
  pathTemplate : String
  requestBody : List (String × Schema)
  responses : List (Nat × ResponseDef)

/-- Status lookup in the responses table (first match wins). -/
def lookupStatus : List (Nat × ResponseDef) → Nat → Option ResponseDef
  | [], _ => none
  | (s, d) :: t, status => if s == status then some d else lookupStatus t status

/-- Content-type keyed lookup in a content mapping (first match wins). -/
def lookupContent : List (String × Schema) → String → Option Schema
  | [], _ => none
  | (k, s) :: t, ct => if k == ct then some s else lookupContent t ct

/-- Modelled from the spec: normalize a content type by stripping parameters
(everything from the first `;` on), removing blanks and lower-casing. -/
def normalizeContentType (v : String) : String :=
  String.mk (((v.data.takeWhile (· ≠ ';')).filter (· ≠ ' ')).map Char.toLower)

/-- The normalized content type of a request or response header list; a
missing content-type header normalizes to the empty string. -/
def contentTypeOf (headers : List (String × String)) : String :=
  normalizeContentType ((headerGet headers "content-type").getD "")

/-- Modelled from the spec: `application/json`-family content types are the
ones interpreted as JSON-parsed bodies. -/
def isJsonFamily (ct : String) : Bool :=
  ct == "application/json" || List.isSuffixOf "+json".data ct.data

/-! ## Validator (modelled from the spec)

The `Validator` class itself is not among the available sources; `validateBody`
and `validateResponse` below are modelled from the specification's step lists
(spec section 4.1).  The platform JSON parser (`JSON.parse`) is an external
capability and is passed in as a function parameter `parse`. -/

/-- The result of `validateBody`: either the raw (non-JSON) body passed
through, or the parsed-and-validated JSON value. -/
inductive ParsedBody where
  | raw (body : Option String)
  | json (j : Json)

/-- The 415 error raised for an undeclared request content type, naming the
received and the accepted content types. -/
def unsupportedMediaTypeError (received : String) (accepted : List String) :
    ValidationError :=
  ⟨.unsupportedMediaType, 415,
    "Unsupported media type: " ++ received ++ "; accepted: " ++
      String.intercalate ", " accepted, []⟩

/-- Modelled from the spec: `validateBody(request)`, steps 1-5 of spec
section 4.1. `parse` is the platform JSON parser (`none` = syntax error). -/
def validateBody (parse : String → Option Json) (contract : RouteContract)
    (req : GenRequest) : Except ValidationError ParsedBody :=
  if contract.requestBody.isEmpty then
    Except.ok (ParsedBody.raw req.body)
  else
    let ct := contentTypeOf req.headers
    match lookupContent contract.requestBody ct with
    | none =>
      Except.error (unsupportedMediaTypeError ct (contract.requestBody.map (·.1)))
    | some schema =>
      if isJsonFamily ct then
        match parse ((req.body).getD "") with
        | none =>
          Except.error ⟨.unsupportedMediaType, 415, "Body is not valid JSON", []⟩
        | some j =>
          match validateSchema schema j with
          | Except.error issues =>
            Except.error ⟨.unprocessableEntity, 422, "Validation failed", issues⟩
          | Except.ok v => Except.ok (ParsedBody.json v)
      else
        Except.ok (ParsedBody.raw req.body)

/-- Modelled from the spec: `validateResponse(response)`, steps 1-5 of spec
section 4.1: undeclared status, undeclared content type, and body/schema
mismatches are all server-side contract violations raised as `Internal`
(500); on success the response (status/headers/buffered body) is returned. -/
def validateResponse (parse : String → Option Json) (contract : RouteContract)
    (res : GenResponse) : Except ValidationError GenResponse :=
  match lookupStatus contract.responses res.status with
  | none =>
    Except.error ⟨.internal, 500,
      "undeclared response status: " ++ toString res.status, []⟩
  | some rdef =>
    if rdef.content.isEmpty then
      Except.ok res
    else
      let ct := contentTypeOf res.headers
      match lookupContent rdef.content ct with
      | none =>
        Except.error ⟨.internal, 500, "undeclared response content type: " ++ ct, []⟩
      | some schema =>
        match parse res.body with
        | none => Except.error ⟨.internal, 500, "response body is not valid JSON", []⟩
        | some j =>
          match validateSchema schema j with
          | Except.error _ =>
            Except.error ⟨.internal, 500, "response body violates response schema", []⟩
          | Except.ok _ => Except.ok ⟨res.status, res.headers, res.body⟩

/-! ## HTTP error conversion (modelled from the spec)

`toHttpError` lives in the library core (`src/index.ts`), which is not among
the available sources; it is modelled from spec section 4.2. -/

/-- A thrown JavaScript value: either a recognized `ValidationError`, or any
other value (modelled by an opaque description string). -/
inductive Thrown where
  | validation (e : ValidationError)
  | other (description : String)

/-- Escape a character for inclusion in a JSON string literal (quotes and
backslashes only; control characters do not occur in the modelled data). -/
def jsonEscapeChar (c : Char) : List Char :=
  if c = '"' ∨ c = '\\' then ['\\', c] else [c]

/-- Render a string as a JSON string literal. -/
def jsonQuote (s : String) : String :=
  String.mk ('"' :: s.data.flatMap jsonEscapeChar ++ ['"'])

/-- Render one issue as a JSON object. -/
def renderIssue (i : Issue) : String :=
  String.mk ("\x7b\"path\":[".data
    ++ (String.intercalate "," (i.path.map jsonQuote)).data
    ++ "],\"message\":".data ++ (jsonQuote i.message).data ++ "\x7d".data)

/-- Modelled from the spec: the default JSON error serializer — a JSON body
`\x7b message, issues? \x7d` with the error's status and a
`content-type: application/json` header. -/
def toJsonErrorResponse (e : ValidationError) : GenResponse :=
  let issuesPart :=
    if e.issues.isEmpty then ""
    else ",\"issues\":[" ++ String.intercalate "," (e.issues.map renderIssue) ++ "]"
  ⟨e.status, [("content-type", "application/json")],
    "\x7b\"message\":" ++ jsonQuote e.message ++ issuesPart ++ "\x7d"⟩

/-- The resolved HTTP error: status, message, ready-to-send response. -/
structure HttpError where
  status : Nat
  message : String
  response : GenResponse

/-- Modelled from the spec: `toHttpError(thrown)` — passes recognized
validation errors through; wraps any other thrown value into `Internal (500)`
with a generic message that never leaks the original one. -/
def toHttpError : Thrown → HttpError
  | .validation e => ⟨e.status, e.message, toJsonErrorResponse e⟩
  | .other _ =>
    let e : ValidationError := ⟨.internal, 500, "Internal Server Error", []⟩
    ⟨500, e.message, toJsonErrorResponse e⟩

/-! ## AWS Lambda adapter

Translated from the source (`toProxyHandler`, `toRequest`, `toResult`).
The WHATWG `URL` constructor and the Fetch `Request` object are platform
builtins; they are modelled shallowly below for the inputs the adapter
produces (a path-absolute first argument against an `https://host` base). -/

/-- The `http` part of a gateway event's request context. -/
structure RequestContextHttp where
  method : String

/-- The request context of an `APIGatewayProxyEventV2`. -/
structure RequestContext where
  domainName : String
  http : RequestContextHttp

/-- An `APIGatewayProxyEventV2` (the fields the adapter can see; fields the
source never touches are carried to state which ones are ignored). -/
structure Event where
  rawPath : String
  rawQueryString : String
  headers : List (String × String)
  requestContext : RequestContext
  body : Option String
  cookies : List String
  isBase64Encoded : Bool

/-- A parsed absolute URL: scheme, host, path and query (search without the
leading question mark). -/
structure UrlModel where
  scheme : String
  host : String
  path : String
  search : String
deriving DecidableEq

/-- Whether a string starts with the given character. -/
def startsWithChar (s : String) (c : Char) : Bool :=
  match s.data with
  | [] => false
  | a :: _ => a == c

/-- Characters a URL host name may not contain. -/
def isHostChar (c : Char) : Bool :=
  !(c = '/' || c = '?' || c = '#' || c = ':' || c = '@' || c = '\\' || c = ' ')

/-- A syntactically valid (non-empty, delimiter-free) URL host. -/
def validHost (h : String) : Bool :=
  !h.data.isEmpty && h.data.all isHostChar

/-- Platform model: `new URL(input, base)` restricted to the shape the
adapter uses — base `https://host` and a path-absolute `input` free of query,
fragment and scheme delimiters. Inputs outside this shape (absolute-URL
inputs, invalid hosts) are mapped to `none`, modelling either a constructor
throw or an out-of-model case. -/
def newUrlWithHttpsBase (input : String) (host : String) : Option UrlModel :=
  if validHost host && startsWithChar input '/'
      && input.data.all (fun c => !(c = '?' || c = '#' || c = ':' || c = '\\')) then
    some ⟨"https", host, input, ""⟩
  else
    none

/-- Platform model: the `url.search` setter — stores the given string as the
query, stripping one leading question mark if present. -/
def setSearch (u : UrlModel) (s : String) : UrlModel :=
  { u with search := if startsWithChar s '?' then String.mk s.data.tail else s }

/-- A Fetch `Request` as constructed by the adapter: URL, method, headers and
raw body. (`new Headers` name normalization is not modelled: the header list
is carried verbatim as an ordered multi-map.) -/
structure FetchRequest where
  url : UrlModel
  method : String
  headers : List (String × String)
  body : Option String

/-- Translated from the source: `toRequest(event)` — builds the URL from
`rawPath` against `https://` + the context's `domainName`, assigns
`rawQueryString` to `url.search`, and passes method, headers and body
through. `none` models a URL-constructor throw. -/
def toRequest (event : Event) : Option FetchRequest :=
  match newUrlWithHttpsBase event.rawPath event.requestContext.domainName with
  | none => none
  | some url =>
    some ⟨setSearch url event.rawQueryString,
      event.requestContext.http.method, event.headers, event.body⟩

/-- An `APIGatewayProxyStructuredResultV2`. -/
structure ProxyResult where
  statusCode : Nat
  headers : List (String × String)
  body : String
  isBase64Encoded : Bool
deriving DecidableEq

/-- Platform model: assignment `obj[k] = v` on a JS object viewed as an
ordered key-value list — updates the value in place if the key exists,
appends otherwise. -/
def setEntry : List (String × String) → String → String → List (String × String)
  | [], k, v => [(k, v)]
  | (k', v') :: t, k, v =>
    if k' == k then (k', v) :: t else (k', v') :: setEntry t k v

/-- Platform model: `Object.fromEntries` — inserts each entry in order, later
values for a repeated key overwriting the earlier one in place. -/
def fromEntries (l : List (String × String)) : List (String × String) :=
  l.foldl (fun acc kv => setEntry acc kv.1 kv.2) []

/-- Translated from the source: `toResult(response)` — propagates the status,
collects the header entries with `Object.fromEntries`, buffers the body text,
and always sets `isBase64Encoded` to `false`. -/
def toResult (res : GenResponse) : ProxyResult :=
  ⟨res.status, fromEntries res.headers, res.body, false⟩

/-- A Fetch-style handler as the adapter invokes it: it either returns a
response or throws. -/
def FetchHandler : Type := FetchRequest → Except Thrown GenResponse

/-- Translated from the source: `toProxyHandler(fetchHandler)` — builds the
request, invokes the handler, and converts the response; any value thrown on
the way (including by the URL constructor, modelled as the `none` branch) is
converted by `toHttpError` and its error response returned instead. -/
def toProxyHandler (fetchHandler : FetchHandler) (event : Event) : ProxyResult :=
  match toRequest event with
  | none => toResult (toHttpError (Thrown.other "Invalid URL")).response
  | some request =>
    match fetchHandler request with
    | Except.ok response => toResult response
    | Except.error e => toResult (toHttpError e).response

/-! ## Express adapter

Translated from `src/express/index.ts`.  `addRoute` rewrites the brace
path template with `path.replace(/{([^}]+)}/g, ':$1')` and registers the
handler; the registered closure rebuilds a generic URL from `req.url`,
`req.protocol`, `req.hostname` and `req.query`. -/

/-- Scan to the first closing brace: returns the characters before it and the
characters after it, or `none` when no closing brace exists. -/
def splitAtClose : List Char → Option (List Char × List Char)
  | [] => none
  | c :: t =>
    if c = '}' then some ([], t)
    else (splitAtClose t).map (fun p => (c :: p.1, p.2))

/-- The global regex replacement `/{([^}]+)}/g` with replacement `:$1`,
character-list form: at each `{`, the (greedy) match runs to the first `}`
and needs at least one character in between; on a match, `{inner}` becomes
`:inner` and scanning resumes after the `}`; otherwise scanning advances one
character. -/
def replaceBraces : List Char → List Char
  | [] => []
  | c :: rest =>
    if c = '{' then
      match h : splitAtClose rest with
      | some (inner, tail) =>
        if inner.isEmpty then c :: replaceBraces rest
        else ':' :: (inner ++ replaceBraces tail)
      | none => c :: rest
    else c :: replaceBraces rest
termination_by l => l.length
decreasing_by
  · simp only [List.length_cons]
    omega
  · have hlen : ∀ l i r, splitAtClose l = some (i, r) → r.length < l.length := by
      intro l
      induction l with
      | nil => intro i r hh; simp [splitAtClose] at hh
      | cons a s ih =>
        intro i r hh
        simp only [splitAtClose] at hh
        by_cases ha : a = '}'
        · simp [ha] at hh
          simp [hh.2.symm]
        · simp [ha] at hh
          obtain ⟨p, hp, _hq⟩ := hh
          have := ih p r hp
          simp only [List.length_cons]
          omega
    have := hlen _ _ _ h
    simp only [List.length_cons]
    omega
  · simp only [List.length_cons]
    omega

/-- Translated from the source: `path.replace(/{([^}]+)}/g, ':$1')`. -/
def expressPath (path : String) : String :=
  String.mk (replaceBraces path.data)

/-- The `addRoute` parameters the path registration depends on. -/
structure AddRouteParams where
  method : String
  pathPattern : String

/-- The (method, path) pair under which `addRoute` registers its handler. -/
structure RegisteredRoute where
  method : String
  path : String

/-- Translated from the source: `addRoute` lower-cases the method and
registers the handler under the rewritten Express path. -/
def addRoute (params : AddRouteParams) : RegisteredRoute :=
  ⟨lowerStr params.method, expressPath params.pathPattern⟩

/-- A value of Express's `req.query` object: a string, an array of strings
(repeated keys), or a nested object — only strings are `typeof ... ===
'string'`. -/
inductive QueryValue where
  | str (s : String)
  | arr (vs : List String)
  | obj (fields : List (String × String))
deriving DecidableEq

/-- Express's `req.query`: an object by default, or a whole query string when
a custom query parser is installed. -/
inductive ReqQuery where
  | str (s : String)
  | obj (entries : List (String × QueryValue))

/-- The fields of an Express request the route closure reads. -/
structure ExpressRequest where
  url : String
  protocol : String
  hostname : String
  method : String
  query : ReqQuery

/-- The URL object the route closure builds (searchParams in order). -/
structure ExpressUrl where
  scheme : String
  hostname : String
  port : Option Nat
  pathname : String
  searchParams : List (String × String)
deriving DecidableEq

/-- The part of `req.url` after the first question mark (empty if none). -/
def queryStringOf (url : String) : String :=
  match url.data.dropWhile (· ≠ '?') with
  | [] => ""
  | _ :: r => String.mk r

/-- The part of `req.url` before the first question mark. -/
def pathnameOf (url : String) : String :=
  String.mk (url.data.takeWhile (· ≠ '?'))

/-- Platform model: parse one `key=value` chunk of a query string (no `=`
gives an empty value; an empty chunk is skipped; percent-decoding is not
modelled). -/
def parsePair (l : List Char) : Option (String × String) :=
  if l.isEmpty then none
  else
    match l.dropWhile (· ≠ '=') with
    | '=' :: v => some (String.mk (l.takeWhile (· ≠ '=')), String.mk v)
    | _ => some (String.mk l, "")

/-- Platform model: the search-parameter list a URL derives from a query
string (split on `&`, each chunk split at its first `=`). -/
def parseQuery (s : String) : List (String × String) :=
  (s.data.splitOn '&').filterMap parsePair

/-- Translated from the source: the `forEach` over `Object.entries(req.query)`
that appends `url.searchParams.append(key, value)` exactly for the
string-typed values. -/
def appendStringParams (init : List (String × String))
    (entries : List (String × QueryValue)) : List (String × String) :=
  entries.foldl
    (fun acc kv =>
      match kv.2 with
      | QueryValue.str s => acc ++ [(kv.1, s)]
      | _ => acc)
    init

/-- Entries of `req.query` whose values are strings, in order. -/
def stringValuedEntries (entries : List (String × QueryValue)) :
    List (String × String) :=
  entries.filterMap
    (fun kv =>
      match kv.2 with
      | QueryValue.str s => some (kv.1, s)
      | _ => none)

/-- Translated from the source: the URL the route closure builds —
`new URL(req.url, protocol://hostname)`, an optional port override, then
either `url.search = req.query` (string case) or appending the string-valued
entries of `req.query` (object case). -/
def buildExpressUrl (req : ExpressRequest) (port : Option Nat) : ExpressUrl :=
  let u0 : ExpressUrl :=
    ⟨req.protocol, req.hostname, none, pathnameOf req.url,
      parseQuery (queryStringOf req.url)⟩
  let u1 : ExpressUrl :=
    match port with
    | some p => { u0 with port := some p }
    | none => u0
  match req.query with
  | ReqQuery.str s =>
    { u1 with searchParams :=
        parseQuery (if startsWithChar s '?' then String.mk s.data.tail else s) }
  | ReqQuery.obj entries =>
    { u1 with searchParams := appendStringParams u1.searchParams entries }

/-! ## The example route of the repository

Concrete instances translated from the example module (`thingHandler` and its
schemas): used to exercise the theorems on concrete data.  The Zod check
`z.string().regex(/[a-z]+/)` tests whether the string contains a lowercase
ASCII letter. -/

/-- The regex test `/[a-z]+/.test(s)`. -/
def lowerRun (s : String) : Bool :=
  s.data.any (fun c => 'a' ≤ c && c ≤ 'z')

/-- The `ThingBodySchema` of the example module. -/
def thingBodySchema : Schema :=
  [("name", lowerRun), ("description", lowerRun)]

/-- The example module's `routeConfig` as a `RouteContract` (the 404/415/422/
500 responses are declared without content schemas). -/
def thingRouteContract : RouteContract :=
  ⟨"post", "/things/\x7bthingId\x7d",
    [("application/json", thingBodySchema)],
    [(200, ⟨"Create a thing", [("application/json", thingBodySchema)]⟩),
     (404, ⟨"Not found", []⟩),
     (415, ⟨"Unsupported media type", []⟩),
     (422, ⟨"Unprocessable entity", []⟩),
     (500, ⟨"Internal server error", []⟩)]⟩

/-- The parsed JSON of the example module's `goodThing` body. -/
def goodThingJson : Json :=
  Json.obj [("name", Json.str "mything"), ("description", Json.str "besthingever")]

/-- The parsed JSON of the example module's `badThing` body. -/
def badThingJson : Json :=
  Json.obj [("name", Json.str "MYTHING"), ("description", Json.str "WORSTTHINGEVER")]

/-- A path template assembled from (literal, placeholder-name) pieces and a
trailing literal: piece `(lit, name)` contributes `lit` followed by the
brace-delimited placeholder `name`. -/
def renderTemplate : List (List Char × List Char) → List Char → List Char
  | [], final => final
  | (lit, name) :: ps, final => lit ++ '\x7b' :: (name ++ '\x7d' :: renderTemplate ps final)

/-- The same template in Express placeholder syntax: each placeholder `name`
becomes a colon followed by `name`. -/
def renderExpress : List (List Char × List Char) → List Char → List Char
  | [], final => final
  | (lit, name) :: ps, final => lit ++ ':' :: (name ++ renderExpress ps final)

/-! ## Theorems -/

/-- A schema-capability failure always carries at least one issue. -/
theorem validateSchema_error_ne_nil (schema : Schema) (j : Json)
    (l : List Issue) (h : validateSchema schema j = Except.error l) : l ≠ [] := by
  cases j <;> simp only [validateSchema] at h
  case obj fields =>
    by_cases he : (schema.filterMap (fun np => checkField fields np.1 np.2)).isEmpty
    · simp [he] at h
    · simp [he] at h
      intro hnil
      rw [h, hnil] at he
      simp at he
  all_goals (cases h; simp)

/-- C1: for every response whose status code is not declared in the route
contract's responses table, `validateResponse` raises an error of kind
`Internal` with status 500 — never a 4xx-status error — and the raised error
is the same for every content type (header list) and body of the response. -/
theorem validateResponse_undeclared_status_is_internal_500
    (parse : String → Option Json) (contract : RouteContract) (res : GenResponse)
    (h : lookupStatus contract.responses res.status = none) :
    ∃ e, validateResponse parse contract res = Except.error e
      ∧ e.kind = ErrorKind.internal
      ∧ e.status = 500
      ∧ ¬(400 ≤ e.status ∧ e.status < 500)
      ∧ ∀ headers body, validateResponse parse contract ⟨res.status, headers, body⟩ =
          Except.error e := by
  refine ⟨⟨ErrorKind.internal, 500,
    "undeclared response status: " ++ toString res.status, []⟩, ?_, rfl, rfl, by simp, ?_⟩
  · simp only [validateResponse, h]
  · intro headers body
    simp only [validateResponse, h]

/-- Witness for C1 at the example contract and an undeclared 201 response. -/
theorem validateResponse_undeclared_status_witness :
    ∃ e, validateResponse (fun _ => none) thingRouteContract ⟨201, [], ""⟩ = Except.error e
      ∧ e.kind = ErrorKind.internal
      ∧ e.status = 500
      ∧ ¬(400 ≤ e.status ∧ e.status < 500)
      ∧ ∀ headers body,
          validateResponse (fun _ => none) thingRouteContract ⟨201, headers, body⟩ =
            Except.error e :=
  validateResponse_undeclared_status_is_internal_500 (fun _ => none) thingRouteContract
    ⟨201, [], ""⟩ rfl

/-- C2: when the contract declares at least one request body schema and the
request's normalized content type matches none of the declared keys,
`validateBody` raises `UnsupportedMediaType` with status 415, and the raised
error is the same for every request body. -/
theorem validateBody_unmatched_content_type_is_415
    (parse : String → Option Json) (contract : RouteContract) (req : GenRequest)
    (hne : contract.requestBody ≠ [])
    (hct : lookupContent contract.requestBody (contentTypeOf req.headers) = none) :
    ∃ e, validateBody parse contract req = Except.error e
      ∧ e.kind = ErrorKind.unsupportedMediaType
      ∧ e.status = 415
      ∧ ∀ body, validateBody parse contract ⟨req.method, req.headers, body⟩ =
          Except.error e := by
  have hempty : contract.requestBody.isEmpty = false := by
    cases hrb : contract.requestBody with
    | nil => exact absurd hrb hne
    | cons a t => rfl
  refine ⟨unsupportedMediaTypeError (contentTypeOf req.headers)
    (contract.requestBody.map (·.1)), ?_, rfl, rfl, ?_⟩
  · simp only [validateBody, hempty, Bool.false_eq_true, if_false, hct]
  · intro body
    simp only [validateBody, hempty, Bool.false_eq_true, if_false, hct]

/-- Witness for C2: a `text/plain` request against the example contract,
which declares only `application/json`. -/
theorem validateBody_unmatched_content_type_witness :
    ∃ e, validateBody (fun _ => none) thingRouteContract
        ⟨"post", [("content-type", "text/plain")], some "hello"⟩ = Except.error e
      ∧ e.kind = ErrorKind.unsupportedMediaType
      ∧ e.status = 415
      ∧ ∀ body, validateBody (fun _ => none) thingRouteContract
          ⟨"post", [("content-type", "text/plain")], body⟩ = Except.error e :=
  validateBody_unmatched_content_type_is_415 (fun _ => none) thingRouteContract
    ⟨"post", [("content-type", "text/plain")], some "hello"⟩
    (by intro h; simp [thingRouteContract] at h) rfl

/-- C3: for every request whose normalized content type matches a declared
JSON-family body schema and whose body parses as syntactically valid JSON but
fails validation against that schema, `validateBody` raises
`UnprocessableEntity` with status 422 and a non-empty issues list. -/
theorem validateBody_schema_failure_is_422
    (parse : String → Option Json) (contract : RouteContract) (req : GenRequest)
    (schema : Schema) (j : Json) (issues : List Issue)
    (hct : lookupContent contract.requestBody (contentTypeOf req.headers) = some schema)
    (hjson : isJsonFamily (contentTypeOf req.headers) = true)
    (hparse : parse ((req.body).getD "") = some j)
    (hval : validateSchema schema j = Except.error issues) :
    validateBody parse contract req =
        Except.error ⟨ErrorKind.unprocessableEntity, 422, "Validation failed", issues⟩
      ∧ issues ≠ [] := by
  have hempty : contract.requestBody.isEmpty = false := by
    cases hrb : contract.requestBody with
    | nil => rw [hrb] at hct; simp [lookupContent] at hct
    | cons a t => rfl
  refine ⟨?_, validateSchema_error_ne_nil schema j issues hval⟩
  simp only [validateBody, hempty, Bool.false_eq_true, if_false, hct, hjson, if_true,
    hparse, hval]

/-- Witness for C3: the example contract with the example module's `badThing`
body (upper-case values fail the lowercase regex checks). -/
theorem validateBody_schema_failure_witness :
    validateBody (fun _ => some badThingJson) thingRouteContract
        ⟨"post", [("content-type", "application/json")],
          some "\x7b\"name\":\"MYTHING\",\"description\":\"WORSTTHINGEVER\"\x7d"⟩ =
      Except.error ⟨ErrorKind.unprocessableEntity, 422, "Validation failed",
        [⟨["name"], "Invalid"⟩, ⟨["description"], "Invalid"⟩]⟩
      ∧ [(⟨["name"], "Invalid"⟩ : Issue), ⟨["description"], "Invalid"⟩] ≠ [] :=
  validateBody_schema_failure_is_422 (fun _ => some badThingJson) thingRouteContract
    ⟨"post", [("content-type", "application/json")],
      some "\x7b\"name\":\"MYTHING\",\"description\":\"WORSTTHINGEVER\"\x7d"⟩
    thingBodySchema badThingJson [⟨["name"], "Invalid"⟩, ⟨["description"], "Invalid"⟩]
    rfl rfl rfl rfl

/-- On success, `validateResponse` returns exactly its input response. -/
theorem validateResponse_ok_eq
    (parse : String → Option Json) (contract : RouteContract)
    (res res' : GenResponse)
    (h : validateResponse parse contract res = Except.ok res') : res' = res := by
  simp only [validateResponse] at h
  cases hs : lookupStatus contract.responses res.status with
  | none => simp only [hs] at h; cases h
  | some rdef =>
    simp only [hs] at h
    by_cases hc : rdef.content.isEmpty
    · simp only [hc, if_true] at h
      cases h
      rfl
    · simp only [hc, Bool.false_eq_true, if_false] at h
      cases hct : lookupContent rdef.content (contentTypeOf res.headers) with
      | none => simp only [hct] at h; cases h
      | some schema =>
        simp only [hct] at h
        cases hp : parse res.body with
        | none => simp only [hp] at h; cases h
        | some j =>
          simp only [hp] at h
          cases hv : validateSchema schema j with
          | error issues => simp only [hv] at h; cases h
          | ok v =>
            simp only [hv] at h
            cases h
            rfl

/-- C4: successful response validation is idempotent — applying
`validateResponse` to its own successful output succeeds again and returns a
response with the same status, headers and body. -/
theorem validateResponse_idempotent
    (parse : String → Option Json) (contract : RouteContract)
    (res res' : GenResponse)
    (h : validateResponse parse contract res = Except.ok res') :
    ∃ res'', validateResponse parse contract res' = Except.ok res''
      ∧ res''.status = res'.status
      ∧ res''.headers = res'.headers
      ∧ res''.body = res'.body := by
  have he := validateResponse_ok_eq parse contract res res' h
  subst he
  exact ⟨res', h, rfl, rfl, rfl⟩

/-- Witness for C4: a valid 200 response of the example contract, validated
twice. -/
theorem validateResponse_idempotent_witness :
    ∃ res'', validateResponse (fun _ => some goodThingJson) thingRouteContract
        ⟨200, [("content-type", "application/json")],
          "\x7b\"name\":\"mything\",\"description\":\"besthingever\"\x7d"⟩ =
        Except.ok res''
      ∧ res''.status = 200
      ∧ res''.headers = [("content-type", "application/json")]
      ∧ res''.body = "\x7b\"name\":\"mything\",\"description\":\"besthingever\"\x7d" :=
  validateResponse_idempotent (fun _ => some goodThingJson) thingRouteContract
    ⟨200, [("content-type", "application/json")],
      "\x7b\"name\":\"mything\",\"description\":\"besthingever\"\x7d"⟩
    ⟨200, [("content-type", "application/json")],
      "\x7b\"name\":\"mything\",\"description\":\"besthingever\"\x7d"⟩
    rfl

/-- Assigning a key absent from the object appends the entry. -/
theorem setEntry_of_not_mem (acc : List (String × String)) (k v : String)
    (h : k ∉ acc.map Prod.fst) : setEntry acc k v = acc ++ [(k, v)] := by
  induction acc with
  | nil => rfl
  | cons p t ih =>
    obtain ⟨k', v'⟩ := p
    simp only [List.map_cons, List.mem_cons] at h
    push_neg at h
    have hne : (k' == k) = false := by
      simp only [beq_eq_false_iff_ne]
      exact fun e => h.1 e.symm
    simp [setEntry, hne, ih h.2]

/-- Folding `setEntry` over entries with fresh, pairwise distinct keys just
appends them. -/
theorem foldl_setEntry_eq (l : List (String × String)) :
    ∀ acc : List (String × String),
      (∀ k ∈ l.map Prod.fst, k ∉ acc.map Prod.fst) → (l.map Prod.fst).Nodup →
      l.foldl (fun a kv => setEntry a kv.1 kv.2) acc = acc ++ l := by
  induction l with
  | nil => intro acc _ _; simp
  | cons p t ih =>
    intro acc hdisj hnodup
    obtain ⟨k, v⟩ := p
    simp only [List.foldl_cons]
    rw [setEntry_of_not_mem acc k v (hdisj k (by simp))]
    simp only [List.map_cons, List.nodup_cons] at hnodup
    have := ih (acc ++ [(k, v)])
      (by
        intro k' hk'
        simp only [List.map_append, List.mem_append, List.map_cons]
        push_neg
        refine ⟨hdisj k' (by simp [hk']), ?_⟩
        simp only [List.map_nil, List.cons_append, List.nil_append, List.mem_singleton]
        intro he
        exact hnodup.1 (he ▸ hk'))
      hnodup.2
    rw [this]
    simp

/-- `Object.fromEntries` is the identity on an entry list with distinct
keys. -/
theorem fromEntries_of_nodup (l : List (String × String))
    (h : (l.map Prod.fst).Nodup) : fromEntries l = l := by
  have := foldl_setEntry_eq l [] (by simp) h
  simpa [fromEntries] using this

/-- C5: `toResult` propagates the response's status as `statusCode`, collects
the response's header entries (unchanged whenever the header names are
distinct, as the Fetch `Headers` object guarantees), buffers the body text,
and sets `isBase64Encoded` to `false` on every input. -/
theorem toResult_propagates_status_headers_body (res : GenResponse)
    (h : (res.headers.map Prod.fst).Nodup) :
    (toResult res).statusCode = res.status
      ∧ (toResult res).headers = res.headers
      ∧ (toResult res).body = res.body
      ∧ (toResult res).isBase64Encoded = false :=
  ⟨rfl, fromEntries_of_nodup res.headers h, rfl, rfl⟩

/-- Witness for C5 at a concrete two-header response. -/
theorem toResult_propagates_witness :
    (toResult ⟨200, [("content-type", "application/json"), ("x-request-id", "abc")],
        "hello"⟩).statusCode = 200
      ∧ (toResult ⟨200, [("content-type", "application/json"), ("x-request-id", "abc")],
          "hello"⟩).headers = [("content-type", "application/json"), ("x-request-id", "abc")]
      ∧ (toResult ⟨200, [("content-type", "application/json"), ("x-request-id", "abc")],
          "hello"⟩).body = "hello"
      ∧ (toResult ⟨200, [("content-type", "application/json"), ("x-request-id", "abc")],
          "hello"⟩).isBase64Encoded = false :=
  toResult_propagates_status_headers_body
    ⟨200, [("content-type", "application/json"), ("x-request-id", "abc")], "hello"⟩
    (by decide)

/-- C6: whenever the wrapped handler throws (any value, Error or not), the
proxy handler returned by `toProxyHandler` does not propagate the thrown
value: it returns the platform result of the error response produced by
`toHttpError` — by construction it is a total function producing exactly one
platform result per invocation. -/
theorem toProxyHandler_converts_thrown (fh : FetchHandler) (event : Event)
    (request : FetchRequest) (e : Thrown)
    (hreq : toRequest event = some request)
    (herr : fh request = Except.error e) :
    toProxyHandler fh event = toResult (toHttpError e).response := by
  simp only [toProxyHandler, hreq, herr]

/-- Witness for C6: a handler throwing a non-Error value on a concrete
event. -/
theorem toProxyHandler_converts_thrown_witness :
    toProxyHandler (fun _ => Except.error (Thrown.other "boom"))
        ⟨"/things/1", "thingId=1", [("content-type", "application/json")],
          ⟨"api.example.com", ⟨"POST"⟩⟩, some "x", [], false⟩ =
      toResult (toHttpError (Thrown.other "boom")).response :=
  toProxyHandler_converts_thrown (fun _ => Except.error (Thrown.other "boom"))
    ⟨"/things/1", "thingId=1", [("content-type", "application/json")],
      ⟨"api.example.com", ⟨"POST"⟩⟩, some "x", [], false⟩
    ⟨⟨"https", "api.example.com", "/things/1", "thingId=1"⟩, "POST",
      [("content-type", "application/json")], some "x"⟩
    (Thrown.other "boom") rfl rfl

/-- C7: for every gateway event whose domain name is a syntactically valid
host, whose raw path is path-absolute and free of URL delimiters, and whose
raw query string carries no leading question mark (the shape the platform
guarantees), `toRequest` builds a request whose absolute URL has scheme
`https`, the event's domain as host, the event's raw path as path and the
event's raw query string as query, and whose method, headers and body are the
event's own. -/
theorem toRequest_reconstructs_url (event : Event)
    (hhost : validHost event.requestContext.domainName = true)
    (hpath : startsWithChar event.rawPath '/' = true)
    (hchars : event.rawPath.data.all
      (fun c => !(c = '?' || c = '#' || c = ':' || c = '\\')) = true)
    (hq : startsWithChar event.rawQueryString '?' = false) :
    ∃ r, toRequest event = some r
      ∧ r.url.scheme = "https"
      ∧ r.url.host = event.requestContext.domainName
      ∧ r.url.path = event.rawPath
      ∧ r.url.search = event.rawQueryString
      ∧ r.method = event.requestContext.http.method
      ∧ r.headers = event.headers
      ∧ r.body = event.body := by
  refine ⟨⟨⟨"https", event.requestContext.domainName, event.rawPath,
    event.rawQueryString⟩, event.requestContext.http.method, event.headers,
    event.body⟩, ?_, rfl, rfl, rfl, rfl, rfl, rfl, rfl⟩
  have hcond : (validHost event.requestContext.domainName
      && startsWithChar event.rawPath '/'
      && event.rawPath.data.all
        (fun c => !(c = '?' || c = '#' || c = ':' || c = '\\'))) = true := by
    rw [hhost, hpath, hchars]
    rfl
  unfold toRequest newUrlWithHttpsBase
  rw [hcond]
  simp [setSearch, hq]

/-- Witness for C7 at a concrete well-formed gateway event. -/
theorem toRequest_reconstructs_url_witness :
    ∃ r, toRequest ⟨"/things/1", "thingId=1", [("content-type", "application/json")],
        ⟨"api.example.com", ⟨"POST"⟩⟩, some "x", [], false⟩ = some r
      ∧ r.url.scheme = "https"
      ∧ r.url.host = "api.example.com"
      ∧ r.url.path = "/things/1"
      ∧ r.url.search = "thingId=1"
      ∧ r.method = "POST"
      ∧ r.headers = [("content-type", "application/json")]
      ∧ r.body = some "x" :=
  toRequest_reconstructs_url
    ⟨"/things/1", "thingId=1", [("content-type", "application/json")],
      ⟨"api.example.com", ⟨"POST"⟩⟩, some "x", [], false⟩
    rfl rfl rfl rfl

/-- C10: `toRequest` passes the event's body through verbatim (never
base64-decoding it, whatever `isBase64Encoded` says), and depends only on the
event's raw path, domain name, raw query string, method, headers and body —
all other event fields (cookies, `isBase64Encoded`) are ignored. -/
theorem toRequest_body_verbatim_and_ignores_rest :
    (∀ (event : Event) (r : FetchRequest), toRequest event = some r →
      r.body = event.body)
    ∧ (∀ e₁ e₂ : Event, e₁.rawPath = e₂.rawPath →
        e₁.requestContext.domainName = e₂.requestContext.domainName →
        e₁.rawQueryString = e₂.rawQueryString →
        e₁.requestContext.http.method = e₂.requestContext.http.method →
        e₁.headers = e₂.headers → e₁.body = e₂.body →
        toRequest e₁ = toRequest e₂) := by
  constructor
  · intro event r h
    simp only [toRequest] at h
    cases hu : newUrlWithHttpsBase event.rawPath event.requestContext.domainName with
    | none => simp only [hu] at h; cases h
    | some url =>
      simp only [hu] at h
      cases h
      rfl
  · intro e₁ e₂ h1 h2 h3 h4 h5 h6
    simp only [toRequest]
    rw [h1, h2, h3, h4, h5, h6]

/-- Witness for C10: two events agreeing on the six used fields but differing
in cookies and in `isBase64Encoded` (the body is marked base64-encoded in the
first) produce the same request, whose body is the raw event body. -/
theorem toRequest_body_verbatim_witness :
    toRequest ⟨"/things/1", "", [], ⟨"api.example.com", ⟨"POST"⟩⟩, some "cmF3",
        ["session=abc"], true⟩ =
      toRequest ⟨"/things/1", "", [], ⟨"api.example.com", ⟨"POST"⟩⟩, some "cmF3",
        [], false⟩
    ∧ (⟨⟨"https", "api.example.com", "/things/1", ""⟩, "POST", [],
        some "cmF3"⟩ : FetchRequest).body = some "cmF3" :=
  ⟨toRequest_body_verbatim_and_ignores_rest.2
      ⟨"/things/1", "", [], ⟨"api.example.com", ⟨"POST"⟩⟩, some "cmF3",
        ["session=abc"], true⟩
      ⟨"/things/1", "", [], ⟨"api.example.com", ⟨"POST"⟩⟩, some "cmF3", [], false⟩
      rfl rfl rfl rfl rfl rfl,
    toRequest_body_verbatim_and_ignores_rest.1
      ⟨"/things/1", "", [], ⟨"api.example.com", ⟨"POST"⟩⟩, some "cmF3",
        ["session=abc"], true⟩
      ⟨⟨"https", "api.example.com", "/things/1", ""⟩, "POST", [], some "cmF3"⟩
      rfl⟩

/-- Scanning to the first closing brace through a brace-free prefix finds
exactly that prefix. -/
theorem splitAtClose_append (l r : List Char) (h : '\x7d' ∉ l) :
    splitAtClose (l ++ '\x7d' :: r) = some (l, r) := by
  induction l with
  | nil => simp [splitAtClose]
  | cons c rest ih =>
    have hc : ¬(c = '\x7d') := fun e => h (by simp [e])
    simp only [List.cons_append, splitAtClose, List.append_eq]
    rw [if_neg hc, ih (fun hm => h (List.mem_cons_of_mem c hm))]
    rfl

/-- The regex replacement leaves a string without opening braces unchanged. -/
theorem replaceBraces_no_open (l : List Char) (h : '\x7b' ∉ l) :
    replaceBraces l = l := by
  induction l with
  | nil => simp [replaceBraces]
  | cons c rest ih =>
    have hc : ¬(c = '\x7b') := fun e => h (by simp [e])
    rw [replaceBraces]
    rw [if_neg hc, ih (fun hm => h (List.mem_cons_of_mem c hm))]

/-- The regex replacement passes over a prefix without opening braces. -/
theorem replaceBraces_append (l m : List Char) (h : '\x7b' ∉ l) :
    replaceBraces (l ++ m) = l ++ replaceBraces m := by
  induction l with
  | nil => simp
  | cons c rest ih =>
    have hc : ¬(c = '\x7b') := fun e => h (by simp [e])
    simp only [List.cons_append]
    rw [replaceBraces]
    rw [if_neg hc, ih (fun hm => h (List.mem_cons_of_mem c hm))]

/-- A non-empty brace-delimited placeholder is rewritten to its colon form and
scanning resumes after the closing brace. -/
theorem replaceBraces_placeholder (name rest : List Char) (hne : name ≠ [])
    (hcl : '\x7d' ∉ name) :
    replaceBraces ('\x7b' :: (name ++ '\x7d' :: rest)) =
      ':' :: (name ++ replaceBraces rest) := by
  rw [replaceBraces]
  rw [if_pos rfl]
  rw [splitAtClose_append name rest hcl]
  have hne' : name.isEmpty = false := by
    cases name with
    | nil => exact absurd rfl hne
    | cons a t => rfl
  simp [hne']

/-- On a whole well-formed template, the regex replacement rewrites every
placeholder and keeps every other character. -/
theorem replaceBraces_renderTemplate (ps : List (List Char × List Char))
    (final : List Char)
    (hlit : ∀ p ∈ ps, '\x7b' ∉ p.1)
    (hname : ∀ p ∈ ps, p.2 ≠ [] ∧ '\x7d' ∉ p.2)
    (hfinal : '\x7b' ∉ final) :
    replaceBraces (renderTemplate ps final) = renderExpress ps final := by
  induction ps with
  | nil => exact replaceBraces_no_open final hfinal
  | cons p t ih =>
    obtain ⟨lit, name⟩ := p
    have h1 := hlit (lit, name) (List.mem_cons_self _ _)
    have h2 := hname (lit, name) (List.mem_cons_self _ _)
    simp only [renderTemplate, renderExpress]
    rw [replaceBraces_append lit _ h1]
    rw [replaceBraces_placeholder name _ h2.1 h2.2]
    rw [ih (fun q hq => hlit q (List.mem_cons_of_mem _ hq))
      (fun q hq => hname q (List.mem_cons_of_mem _ hq))]

/-- C8: `addRoute` registers the handler under the template path in which
every brace-delimited placeholder segment is rewritten to the Express `:name`
syntax and every other character is unchanged. -/
theorem addRoute_translates_path_template (m : String)
    (ps : List (List Char × List Char)) (final : List Char)
    (hlit : ∀ p ∈ ps, '\x7b' ∉ p.1)
    (hname : ∀ p ∈ ps, p.2 ≠ [] ∧ '\x7d' ∉ p.2)
    (hfinal : '\x7b' ∉ final) :
    (addRoute ⟨m, String.mk (renderTemplate ps final)⟩).path =
      String.mk (renderExpress ps final) :=
  congrArg String.mk (replaceBraces_renderTemplate ps final hlit hname hfinal)

/-- Witness for C8: the example route's template `/things/(thingId)` becomes
`/things/:thingId`. -/
theorem addRoute_translates_path_template_witness :
    (addRoute ⟨"POST",
        String.mk (renderTemplate [("/things/".data, "thingId".data)] [])⟩).path =
      String.mk (renderExpress [("/things/".data, "thingId".data)] []) :=
  addRoute_translates_path_template "POST" [("/things/".data, "thingId".data)] []
    (by decide) (by decide) (by decide)

/-- C9 counterexample: the URL built by the Express route closure does not, in
general, contain exactly the string-valued entries of `req.query`: when
`req.url` itself carries a query string (as Express's `req.url` does), its
parameters remain in the URL — here a repeated key whose `req.query` value is
an array (a non-string) still shows up in the search parameters. -/
theorem buildExpressUrl_not_exactly_string_params :
    ¬ (∀ (req : ExpressRequest) (port : Option Nat)
        (entries : List (String × QueryValue)),
        req.query = ReqQuery.obj entries →
        (buildExpressUrl req port).searchParams = stringValuedEntries entries) := by
  intro h
  have := h ⟨"/things?a=1&a=2", "http", "localhost", "GET",
      ReqQuery.obj [("a", QueryValue.arr ["1", "2"])]⟩ none
      [("a", QueryValue.arr ["1", "2"])] rfl
  exact absurd this (by decide)

/-- Folding the string-valued appends equals appending the string-valued
entries. -/
theorem appendStringParams_eq (entries : List (String × QueryValue)) :
    ∀ init, appendStringParams init entries = init ++ stringValuedEntries entries := by
  induction entries with
  | nil => intro init; simp [appendStringParams, stringValuedEntries]
  | cons p t ih =>
    intro init
    obtain ⟨k, v⟩ := p
    cases v with
    | str sv =>
      simp only [appendStringParams, List.foldl_cons] at ih ⊢
      rw [ih]
      simp [stringValuedEntries]
    | arr vs =>
      simp only [appendStringParams, List.foldl_cons] at ih ⊢
      rw [ih]
      simp [stringValuedEntries]
    | obj fs =>
      simp only [appendStringParams, List.foldl_cons] at ih ⊢
      rw [ih]
      simp [stringValuedEntries]

/-- C9 (amended): for an object-typed `req.query`, the URL's search
parameters are those parsed from the query string already present in
`req.url`, followed by exactly the entries of `req.query` whose values are
strings — entries with non-string values are omitted from the appending. -/
theorem buildExpressUrl_appends_string_params (req : ExpressRequest)
    (port : Option Nat) (entries : List (String × QueryValue))
    (h : req.query = ReqQuery.obj entries) :
    (buildExpressUrl req port).searchParams =
      parseQuery (queryStringOf req.url) ++ stringValuedEntries entries := by
  cases port with
  | none => simp only [buildExpressUrl, h, appendStringParams_eq]
  | some p => simp only [buildExpressUrl, h, appendStringParams_eq]

/-- Witness for C9's amended statement at the counterexample request. -/
theorem buildExpressUrl_appends_string_params_witness :
    (buildExpressUrl ⟨"/things?a=1&a=2", "http", "localhost", "GET",
        ReqQuery.obj [("a", QueryValue.arr ["1", "2"]), ("b", QueryValue.str "2")]⟩
        none).searchParams =
      parseQuery (queryStringOf "/things?a=1&a=2") ++
        stringValuedEntries [("a", QueryValue.arr ["1", "2"]), ("b", QueryValue.str "2")] :=
  buildExpressUrl_appends_string_params
    ⟨"/things?a=1&a=2", "http", "localhost", "GET",
      ReqQuery.obj [("a", QueryValue.arr ["1", "2"]), ("b", QueryValue.str "2")]⟩
    none [("a", QueryValue.arr ["1", "2"]), ("b", QueryValue.str "2")] rfl

end OpenapiValidator
